import Mathlib

/-!
Verification of the drac-facts Ansible modules (`library/drac_facts.py` and
`library/drac_bios_facts.py`).

The two Python modules gather facts from a Dell iDRAC management controller
through the external `dracclient` library and assemble them into a facts
document.  We embed the fact-gathering functions shallowly:

* a Python object's attribute set (a BIOS/NIC setting object) and a Python
  dict are both modelled as association lists `List (String × V)` over an
  abstract value type `V`; `hasattr o a` is `(List.lookup a o).isSome` and
  `getattr o a` is the looked-up value;
* a `collections.namedtuple` record is modelled by `RawRecord.namedtuple`
  carrying its ordered field list; an object of unexpected shape (one
  lacking `_asdict`, on which the conversion in `namedtuples_to_dicts`
  raises `AttributeError`) is `RawRecord.malformed`;
* the `dracclient.client.DRACClient` session is modelled as a record of
  query results, each an `Except String _` since every remote query can
  raise; Python exception propagation is the `Except` monad;
* `module.exit_json` / `module.fail_json` become the two constructors of
  `Outcome`.

The order in which `get_facts` issues controller queries is made observable
by an instrumented variant `get_facts_traced` that also returns the list of
controller operations performed, in order, up to the first failure.
-/

set_option autoImplicit false

namespace DracFacts

variable {V : Type}

/-- An attribute map: the attributes of a Python object, or the entries of a
Python dict, as an ordered association list. -/
abbrev AttrMap (V : Type) := List (String × V)

/-- A controller-native fixed-shape record as returned by the `dracclient`
list queries.  `namedtuple fields` models a `collections.namedtuple` with
its ordered field list (field names are unique); `malformed desc` models an
object of unexpected shape that lacks the `_asdict` method. -/
inductive RawRecord (V : Type) where
  | namedtuple (fields : AttrMap V)
  | malformed (desc : String)
  deriving DecidableEq

/-- `nt._asdict()` followed by `dict(...)`: succeeds with the field list on a
real namedtuple, raises `AttributeError` on an object of unexpected shape. -/
def asdict : RawRecord V → Except String (AttrMap V)
  | .namedtuple fields => .ok fields
  | .malformed desc =>
      .error ("AttributeError: " ++ desc ++ " object has no attribute _asdict")

/-- The three recognized optional attributes of a Setting-family record, in
the order of the `attrs` set literal in `get_bios_settings`.  (Python
iterates the set in an unspecified order; only membership matters to the
result's meaning, so we fix the literal's order.) -/
def settingAttrs : List String := ["current_value", "pending_value", "possible_values"]

/-- The body of the per-setting loop of `get_bios_settings`: build a dict
holding each recognized attribute iff the source object exposes it
(`if hasattr(value, attr): setting[attr] = getattr(value, attr)`). -/
def normalizeSetting (value : AttrMap V) : AttrMap V :=
  settingAttrs.filterMap fun attr => (List.lookup attr value).map fun v => (attr, v)

/-- The loop of `get_bios_settings` over the settings mapping: normalize each
setting object, keeping the setting names. -/
def normalizeSettings (src : List (String × AttrMap V)) : List (String × AttrMap V) :=
  src.map fun pv => (pv.1, normalizeSetting pv.2)

/-- `[dict(nt._asdict()) for nt in nts]`: convert namedtuples to dicts one by
one, left to right; the first record that raises aborts the comprehension and
the exception propagates. -/
def namedtuples_to_dicts : List (RawRecord V) → Except String (List (AttrMap V))
  | [] => .ok []
  | nt :: rest => do
      let d ← asdict nt
      let ds ← namedtuples_to_dicts rest
      return d :: ds

/-- The `dracclient.client.DRACClient` session built by `build_client`,
modelled by the results its read-only list queries would deliver during this
run.  Each query may fail (`Except.error`) with a transport-level error. -/
structure DRACClient (V : Type) where
  list_bios_settings : Except String (List (String × AttrMap V))
  list_nics : Except String (List (AttrMap V))
  list_raid_controllers : Except String (List (RawRecord V))
  list_physical_disks : Except String (List (RawRecord V))
  list_virtual_disks : Except String (List (RawRecord V))
  list_jobs : Bool → Except String (List (RawRecord V))

/-- `get_bios_settings(bmc)` (identical in both modules): query the BIOS
settings and normalize each one. -/
def get_bios_settings (bmc : DRACClient V) : Except String (List (String × AttrMap V)) := do
  let bios_settings ← bmc.list_bios_settings
  return normalizeSettings bios_settings

/-- `get_nic_settings(bmc)`: return the result of `bmc.list_nics()` as is,
with no conversion applied. -/
def get_nic_settings (bmc : DRACClient V) : Except String (List (AttrMap V)) :=
  bmc.list_nics

/-- `get_raid_config(bmc)`: query controllers, physical disks and virtual
disks, then convert each list of namedtuples to dicts. -/
def get_raid_config (bmc : DRACClient V) :
    Except String (List (AttrMap V) × List (AttrMap V) × List (AttrMap V)) := do
  let controllers ← bmc.list_raid_controllers
  let pdisks ← bmc.list_physical_disks
  let vdisks ← bmc.list_virtual_disks
  let controllers2 ← namedtuples_to_dicts controllers
  let pdisks2 ← namedtuples_to_dicts pdisks
  let vdisks2 ← namedtuples_to_dicts vdisks
  return (controllers2, pdisks2, vdisks2)

/-- `get_jobs(bmc, only_unfinished)`: query the job list with the selector
and convert the namedtuples to dicts. -/
def get_jobs (bmc : DRACClient V) (only_unfinished : Bool) : Except String (List (AttrMap V)) := do
  let jobs ← bmc.list_jobs only_unfinished
  namedtuples_to_dicts jobs

/-- One value of the facts document: the BIOS settings dict of dicts, the
raw (unconverted) NIC records, or a list of dicts converted from
namedtuples. -/
inductive FactVal (V : Type) where
  | settingsMap (m : List (String × AttrMap V))
  | rawObjs (l : List (AttrMap V))
  | dicts (l : List (AttrMap V))
  deriving DecidableEq

/-- The facts document: the dict literal returned by `get_facts`
(respectively `get_bios_facts`), as an ordered association list. -/
abbrev FactsDoc (V : Type) := List (String × FactVal V)

/-- `get_facts(module)` of `drac_facts.py`, after `build_client`: gather all
seven fact families in source order and assemble the document. -/
def get_facts (bmc : DRACClient V) : Except String (FactsDoc V) := do
  let bios_settings ← get_bios_settings bmc
  let nic_settings ← get_nic_settings bmc
  let (controllers, pdisks, vdisks) ← get_raid_config bmc
  let jobs ← get_jobs bmc false
  let unfinished_jobs ← get_jobs bmc true
  return [("drac_bios_settings", .settingsMap bios_settings),
          ("drac_nic_settings", .rawObjs nic_settings),
          ("drac_jobs", .dicts jobs),
          ("drac_unfinished_jobs", .dicts unfinished_jobs),
          ("drac_raid_controllers", .dicts controllers),
          ("drac_physical_disks", .dicts pdisks),
          ("drac_virtual_disks", .dicts vdisks)]

/-- `get_bios_facts(module)` of `drac_bios_facts.py`, after `build_client`:
the reduced-mode aggregation (BIOS settings and the two job views only). -/
def get_bios_facts (bmc : DRACClient V) : Except String (FactsDoc V) := do
  let settings ← get_bios_settings bmc
  let jobs ← get_jobs bmc false
  let unfinished_jobs ← get_jobs bmc true
  return [("drac_bios_settings", .settingsMap settings),
          ("drac_jobs", .dicts jobs),
          ("drac_unfinished_jobs", .dicts unfinished_jobs)]

/-- A controller-session operation as exposed by the `dracclient` API.  The
list operations are the read-only queries the modules call; the last two
are mutating operations the `dracclient` API also offers (such as applying
pending BIOS settings or rewriting the RAID configuration), representable
here so that never issuing them is a meaningful statement. -/
inductive Op where
  | listBios
  | listNics
  | listRaidControllers
  | listPhysicalDisks
  | listVirtualDisks
  | listJobs (only_unfinished : Bool)
  | applyBiosSettings
  | applyRaidConfig
  deriving DecidableEq

/-- Whether a controller operation mutates controller state: only the two
configuration-changing operations do; every list query is read-only. -/
def Op.mutates : Op → Bool
  | .applyBiosSettings => true
  | .applyRaidConfig => true
  | _ => false

/-- `get_facts` instrumented with the sequence of controller operations it
performs: the same control flow as `get_facts` (queries and conversions in
source order, the first exception aborting the run), paired with the list of
session operations issued, in order, up to that point. -/
def get_facts_traced (bmc : DRACClient V) : List Op × Except String (FactsDoc V) :=
  match bmc.list_bios_settings with
  | .error e => ([.listBios], .error e)
  | .ok biosSrc =>
    match bmc.list_nics with
    | .error e => ([.listBios, .listNics], .error e)
    | .ok nics =>
      match bmc.list_raid_controllers with
      | .error e => ([.listBios, .listNics, .listRaidControllers], .error e)
      | .ok rc =>
        match bmc.list_physical_disks with
        | .error e =>
            ([.listBios, .listNics, .listRaidControllers, .listPhysicalDisks], .error e)
        | .ok pd =>
          match bmc.list_virtual_disks with
          | .error e =>
              ([.listBios, .listNics, .listRaidControllers, .listPhysicalDisks,
                .listVirtualDisks], .error e)
          | .ok vd =>
            match namedtuples_to_dicts rc with
            | .error e =>
                ([.listBios, .listNics, .listRaidControllers, .listPhysicalDisks,
                  .listVirtualDisks], .error e)
            | .ok rcd =>
              match namedtuples_to_dicts pd with
              | .error e =>
                  ([.listBios, .listNics, .listRaidControllers, .listPhysicalDisks,
                    .listVirtualDisks], .error e)
              | .ok pdd =>
                match namedtuples_to_dicts vd with
                | .error e =>
                    ([.listBios, .listNics, .listRaidControllers, .listPhysicalDisks,
                      .listVirtualDisks], .error e)
                | .ok vdd =>
                  match bmc.list_jobs false with
                  | .error e =>
                      ([.listBios, .listNics, .listRaidControllers, .listPhysicalDisks,
                        .listVirtualDisks, .listJobs false], .error e)
                  | .ok jf =>
                    match namedtuples_to_dicts jf with
                    | .error e =>
                        ([.listBios, .listNics, .listRaidControllers, .listPhysicalDisks,
                          .listVirtualDisks, .listJobs false], .error e)
                    | .ok jfd =>
                      match bmc.list_jobs true with
                      | .error e =>
                          ([.listBios, .listNics, .listRaidControllers, .listPhysicalDisks,
                            .listVirtualDisks, .listJobs false, .listJobs true], .error e)
                      | .ok jt =>
                        match namedtuples_to_dicts jt with
                        | .error e =>
                            ([.listBios, .listNics, .listRaidControllers, .listPhysicalDisks,
                              .listVirtualDisks, .listJobs false, .listJobs true], .error e)
                        | .ok jtd =>
                            ([.listBios, .listNics, .listRaidControllers, .listPhysicalDisks,
                              .listVirtualDisks, .listJobs false, .listJobs true],
                             .ok [("drac_bios_settings", .settingsMap (normalizeSettings biosSrc)),
                                  ("drac_nic_settings", .rawObjs nics),
                                  ("drac_jobs", .dicts jfd),
                                  ("drac_unfinished_jobs", .dicts jtd),
                                  ("drac_raid_controllers", .dicts rcd),
                                  ("drac_physical_disks", .dicts pdd),
                                  ("drac_virtual_disks", .dicts vdd)])

/-- `get_bios_facts` instrumented with its controller-operation trace, as
`get_facts_traced` is for `get_facts`. -/
def get_bios_facts_traced (bmc : DRACClient V) : List Op × Except String (FactsDoc V) :=
  match bmc.list_bios_settings with
  | .error e => ([.listBios], .error e)
  | .ok biosSrc =>
    match bmc.list_jobs false with
    | .error e => ([.listBios, .listJobs false], .error e)
    | .ok jf =>
      match namedtuples_to_dicts jf with
      | .error e => ([.listBios, .listJobs false], .error e)
      | .ok jfd =>
        match bmc.list_jobs true with
        | .error e => ([.listBios, .listJobs false, .listJobs true], .error e)
        | .ok jt =>
          match namedtuples_to_dicts jt with
          | .error e => ([.listBios, .listJobs false, .listJobs true], .error e)
          | .ok jtd =>
              ([.listBios, .listJobs false, .listJobs true],
               .ok [("drac_bios_settings", .settingsMap (normalizeSettings biosSrc)),
                    ("drac_jobs", .dicts jfd),
                    ("drac_unfinished_jobs", .dicts jtd)])

/-- The outcome `main` reports through the Ansible module object:
`exit_json(changed=False, ansible_facts=facts, **facts)` on success,
`fail_json(msg=...)` on failure. -/
inductive Outcome (V : Type) where
  | exit_json (changed : Bool) (ansible_facts : FactsDoc V)
  | fail_json (msg : String)
  deriving DecidableEq

/-- `main()` of `drac_facts.py`, after argument parsing: abort on any
recorded import errors, otherwise run `get_facts` under `try`, reporting any
exception as a failure and the document as success.  `import_errors` holds
the `repr` strings of the accumulated import exceptions. -/
def main (import_errors : List String) (bmc : DRACClient V) : Outcome V :=
  if import_errors.isEmpty then
    match get_facts bmc with
    | .error e => .fail_json ("Failed to get facts: " ++ e)
    | .ok facts => .exit_json false facts
  else
    .fail_json ("Import errors: " ++ String.intercalate ", " import_errors)

/-! ### Lookup lemmas for the Setting normalization -/

theorem lookup_attrFilterMap_of_not_mem (f : String → Option V) (a : String) :
    ∀ as : List String, a ∉ as →
      List.lookup a (as.filterMap fun x => (f x).map fun v => (x, v)) = none := by
  intro as
  induction as with
  | nil => intro _; rfl
  | cons b bs ih =>
    intro h
    have hab : a ≠ b := fun hEq => h (hEq ▸ List.mem_cons_self b bs)
    have habs : a ∉ bs := fun hm => h (List.mem_cons_of_mem b hm)
    have hfalse : (a == b) = false := beq_false_of_ne hab
    cases hfb : f b with
    | none => simpa [List.filterMap_cons, hfb] using ih habs
    | some w =>
      simp only [List.filterMap_cons, hfb, Option.map_some', List.lookup_cons, hfalse]
      exact ih habs

theorem lookup_attrFilterMap_of_mem (f : String → Option V) :
    ∀ as : List String, as.Nodup → ∀ a ∈ as,
      List.lookup a (as.filterMap fun x => (f x).map fun v => (x, v)) = f a := by
  intro as
  induction as with
  | nil => intro _ a ha; exact absurd ha (List.not_mem_nil a)
  | cons b bs ih =>
    intro hnd a ha
    have hndtail : bs.Nodup := (List.nodup_cons.mp hnd).2
    have hbnotin : b ∉ bs := (List.nodup_cons.mp hnd).1
    rcases List.mem_cons.mp ha with rfl | hm
    · cases hfa : f a with
      | none =>
        simp only [List.filterMap_cons, hfa, Option.map_none]
        exact lookup_attrFilterMap_of_not_mem f a bs hbnotin
      | some w =>
        simp [List.filterMap_cons, hfa, List.lookup_cons]
    · have hab : a ≠ b := fun hEq => hbnotin (hEq ▸ hm)
      have hfalse : (a == b) = false := beq_false_of_ne hab
      cases hfb : f b with
      | none => simpa [List.filterMap_cons, hfb] using ih hndtail a hm
      | some w =>
        simp only [List.filterMap_cons, hfb, Option.map_some', List.lookup_cons, hfalse]
        exact ih hndtail a hm

theorem lookup_attrFilterMap_some (f : String → Option V) (k : String) (v : V) :
    ∀ as : List String,
      List.lookup k (as.filterMap fun x => (f x).map fun w => (x, w)) = some v →
      k ∈ as ∧ f k = some v := by
  intro as
  induction as with
  | nil => intro h; simp at h
  | cons b bs ih =>
    intro h
    cases hfb : f b with
    | none =>
      simp only [List.filterMap_cons, hfb] at h
      rcases ih h with ⟨hm, hv⟩
      exact ⟨List.mem_cons_of_mem b hm, hv⟩
    | some w =>
      simp only [List.filterMap_cons, hfb, Option.map_some', List.lookup_cons] at h
      cases hkb : (k == b) with
      | false =>
        simp only [hkb] at h
        rcases ih h with ⟨hm, hv⟩
        exact ⟨List.mem_cons_of_mem b hm, hv⟩
      | true =>
        simp only [hkb] at h
        have hk : k = b := eq_of_beq hkb
        have hwv : w = v := Option.some.inj h
        exact ⟨hk ▸ List.mem_cons_self b bs, by rw [hk, hfb, hwv]⟩

theorem settingAttrs_nodup : settingAttrs.Nodup := by decide

theorem normalizeSetting_lookup_mem (value : AttrMap V) (a : String) (ha : a ∈ settingAttrs) :
    List.lookup a (normalizeSetting value) = List.lookup a value :=
  lookup_attrFilterMap_of_mem (fun attr => List.lookup attr value)
    settingAttrs settingAttrs_nodup a ha

theorem normalizeSetting_lookup_some (value : AttrMap V) (k : String) (v : V)
    (h : List.lookup k (normalizeSetting value) = some v) :
    k ∈ settingAttrs ∧ List.lookup k value = some v :=
  lookup_attrFilterMap_some (fun attr => List.lookup attr value) k v settingAttrs h

theorem normalizeSetting_eq_nil (value : AttrMap V)
    (h : ∀ a ∈ settingAttrs, List.lookup a value = none) :
    normalizeSetting value = [] := by
  unfold normalizeSetting
  rw [List.filterMap_eq_nil_iff]
  intro a ha
  rw [h a ha]
  rfl

/-! ### Concrete inputs for witnesses -/

/-- A BIOS setting object exposing two of the three recognized attributes. -/
def sampleSetting : AttrMap String := [("current_value", "On"), ("pending_value", "Off")]

/-- A BIOS setting object exposing none of the three recognized attributes. -/
def bareSetting : AttrMap String := [("oddity", "x")]

/-- A client session on which every query succeeds, with one BIOS setting
and otherwise empty collections. -/
def sampleClient : DRACClient String where
  list_bios_settings := .ok [("NumLock", sampleSetting)]
  list_nics := .ok []
  list_raid_controllers := .ok []
  list_physical_disks := .ok []
  list_virtual_disks := .ok []
  list_jobs := fun _ => .ok []

/-- A client session whose single BIOS setting exposes no recognized
attribute. -/
def bareClient : DRACClient String where
  list_bios_settings := .ok [("AssetTag", bareSetting)]
  list_nics := .ok []
  list_raid_controllers := .ok []
  list_physical_disks := .ok []
  list_virtual_disks := .ok []
  list_jobs := fun _ => .ok []

/-! ### C1 -/

/-- C1: for every BIOS-setting record returned by the controller,
`get_bios_settings` produces a normalized record containing each of the
three recognized optional attributes iff the source record exposes it (with
the source's value, so no default is ever synthesized), containing nothing
else, and a missing attribute never raises an error (the result is
`Except.ok` whenever the query succeeded, whatever attributes are
missing). -/
theorem bios_settings_attribute_presence (bmc : DRACClient V)
    (src : List (String × AttrMap V))
    (hq : bmc.list_bios_settings = Except.ok src) :
    ∃ out, get_bios_settings bmc = Except.ok out ∧
      ∀ p ∈ src, ∃ r, (p.1, r) ∈ out ∧
        (∀ a ∈ settingAttrs, List.lookup a r = List.lookup a p.2) ∧
        (∀ k v, List.lookup k r = some v →
          k ∈ settingAttrs ∧ List.lookup k p.2 = some v) := by
  refine ⟨normalizeSettings src, ?_, ?_⟩
  · unfold get_bios_settings
    rw [hq]
    rfl
  · intro p hp
    refine ⟨normalizeSetting p.2, ?_, ?_, ?_⟩
    · unfold normalizeSettings
      exact List.mem_map.mpr ⟨p, hp, rfl⟩
    · intro a ha
      exact normalizeSetting_lookup_mem p.2 a ha
    · intro k v hkv
      exact normalizeSetting_lookup_some p.2 k v hkv

/-- Witness for C1 at a concrete client session. -/
theorem bios_settings_attribute_presence_witness :
    ∃ out, get_bios_settings sampleClient = Except.ok out ∧
      ∀ p ∈ [("NumLock", sampleSetting)], ∃ r, (p.1, r) ∈ out ∧
        (∀ a ∈ settingAttrs, List.lookup a r = List.lookup a p.2) ∧
        (∀ k v, List.lookup k r = some v →
          k ∈ settingAttrs ∧ List.lookup k p.2 = some v) :=
  bios_settings_attribute_presence sampleClient [("NumLock", sampleSetting)] rfl

/-! ### C10 -/

/-- C10: the key set of the mapping returned by `get_bios_settings` equals
the key set of the queried mapping, and a setting whose source record
exposes none of the three recognized attributes still appears in the
output, mapped to an empty record, never dropped. -/
theorem bios_settings_key_preservation (bmc : DRACClient V)
    (src : List (String × AttrMap V))
    (hq : bmc.list_bios_settings = Except.ok src) :
    ∃ out, get_bios_settings bmc = Except.ok out ∧
      out.map Prod.fst = src.map Prod.fst ∧
      ∀ p ∈ src, (∀ a ∈ settingAttrs, List.lookup a p.2 = none) →
        (p.1, ([] : AttrMap V)) ∈ out := by
  refine ⟨normalizeSettings src, ?_, ?_, ?_⟩
  · unfold get_bios_settings
    rw [hq]
    rfl
  · unfold normalizeSettings
    simp
  · intro p hp hnone
    have hnil : normalizeSetting p.2 = [] := normalizeSetting_eq_nil p.2 hnone
    unfold normalizeSettings
    exact List.mem_map.mpr ⟨p, hp, by rw [hnil]⟩

/-- Witness for C10 at a concrete client session whose one setting exposes
no recognized attribute. -/
theorem bios_settings_key_preservation_witness :
    ∃ out, get_bios_settings bareClient = Except.ok out ∧
      out.map Prod.fst = [("AssetTag", bareSetting)].map Prod.fst ∧
      ∀ p ∈ [("AssetTag", bareSetting)],
        (∀ a ∈ settingAttrs, List.lookup a p.2 = none) →
        (p.1, ([] : AttrMap String)) ∈ out :=
  bios_settings_key_preservation bareClient [("AssetTag", bareSetting)] rfl

/-! ### Reduction lemmas for the Except monad and inversion of get_facts -/

theorem exceptOk_bind {α β : Type} (a : α) (f : α → Except String β) :
    (Except.ok a >>= f) = f a := rfl

theorem exceptError_bind {α β : Type} (e : String) (f : α → Except String β) :
    ((Except.error e : Except String α) >>= f) = Except.error e := rfl

theorem exceptPure_eq {α : Type} (a : α) : (pure a : Except String α) = Except.ok a := rfl

/-- Inversion of a successful `get_facts` run: every query succeeded, every
namedtuple conversion succeeded, and the document is the source's dict
literal over those results. -/
theorem get_facts_ok_inv (bmc : DRACClient V) (doc : FactsDoc V)
    (h : get_facts bmc = Except.ok doc) :
    ∃ bios nics rc pd vd rcd pdd vdd jf jfd jt jtd,
      bmc.list_bios_settings = Except.ok bios ∧
      bmc.list_nics = Except.ok nics ∧
      bmc.list_raid_controllers = Except.ok rc ∧
      bmc.list_physical_disks = Except.ok pd ∧
      bmc.list_virtual_disks = Except.ok vd ∧
      namedtuples_to_dicts rc = Except.ok rcd ∧
      namedtuples_to_dicts pd = Except.ok pdd ∧
      namedtuples_to_dicts vd = Except.ok vdd ∧
      bmc.list_jobs false = Except.ok jf ∧
      namedtuples_to_dicts jf = Except.ok jfd ∧
      bmc.list_jobs true = Except.ok jt ∧
      namedtuples_to_dicts jt = Except.ok jtd ∧
      doc = [("drac_bios_settings", .settingsMap (normalizeSettings bios)),
             ("drac_nic_settings", .rawObjs nics),
             ("drac_jobs", .dicts jfd),
             ("drac_unfinished_jobs", .dicts jtd),
             ("drac_raid_controllers", .dicts rcd),
             ("drac_physical_disks", .dicts pdd),
             ("drac_virtual_disks", .dicts vdd)] := by
  unfold get_facts get_bios_settings get_nic_settings get_raid_config get_jobs at h
  cases hb : bmc.list_bios_settings with
  | error e =>
    simp only [hb, exceptError_bind] at h
    exact Except.noConfusion h
  | ok bios =>
  simp only [hb, exceptOk_bind, exceptPure_eq] at h
  cases hn : bmc.list_nics with
  | error e =>
    simp only [hn, exceptError_bind] at h
    exact Except.noConfusion h
  | ok nics =>
  simp only [hn, exceptOk_bind] at h
  cases hrc : bmc.list_raid_controllers with
  | error e =>
    simp only [hrc, exceptError_bind] at h
    exact Except.noConfusion h
  | ok rc =>
  simp only [hrc, exceptOk_bind] at h
  cases hpd : bmc.list_physical_disks with
  | error e =>
    simp only [hpd, exceptError_bind] at h
    exact Except.noConfusion h
  | ok pd =>
  simp only [hpd, exceptOk_bind] at h
  cases hvd : bmc.list_virtual_disks with
  | error e =>
    simp only [hvd, exceptError_bind] at h
    exact Except.noConfusion h
  | ok vd =>
  simp only [hvd, exceptOk_bind] at h
  cases hrcd : namedtuples_to_dicts rc with
  | error e =>
    simp only [hrcd, exceptError_bind] at h
    exact Except.noConfusion h
  | ok rcd =>
  simp only [hrcd, exceptOk_bind] at h
  cases hpdd : namedtuples_to_dicts pd with
  | error e =>
    simp only [hpdd, exceptError_bind] at h
    exact Except.noConfusion h
  | ok pdd =>
  simp only [hpdd, exceptOk_bind] at h
  cases hvdd : namedtuples_to_dicts vd with
  | error e =>
    simp only [hvdd, exceptError_bind] at h
    exact Except.noConfusion h
  | ok vdd =>
  simp only [hvdd, exceptOk_bind, exceptPure_eq] at h
  cases hjf : bmc.list_jobs false with
  | error e =>
    simp only [hjf, exceptError_bind] at h
    exact Except.noConfusion h
  | ok jf =>
  simp only [hjf, exceptOk_bind] at h
  cases hjfd : namedtuples_to_dicts jf with
  | error e =>
    simp only [hjfd, exceptError_bind] at h
    exact Except.noConfusion h
  | ok jfd =>
  simp only [hjfd, exceptOk_bind] at h
  cases hjt : bmc.list_jobs true with
  | error e =>
    simp only [hjt, exceptError_bind] at h
    exact Except.noConfusion h
  | ok jt =>
  simp only [hjt, exceptOk_bind] at h
  cases hjtd : namedtuples_to_dicts jt with
  | error e =>
    simp only [hjtd, exceptError_bind] at h
    exact Except.noConfusion h
  | ok jtd =>
  simp only [hjtd, exceptOk_bind, exceptPure_eq] at h
  exact ⟨bios, nics, rc, pd, vd, rcd, pdd, vdd, jf, jfd, jt, jtd,
    rfl, rfl, rfl, rfl, rfl, hrcd, hpdd, hvdd, rfl, hjfd, rfl, hjtd,
    (Except.ok.inj h).symm⟩

/-- Whether a query or conversion raised (Python: the call raised an
exception). -/
def isFailure {α : Type} : Except String α → Bool
  | .error _ => true
  | .ok _ => false

/-! ### C2 -/

/-- C2: aggregation is all-or-nothing: if any one of the fact-family queries
or namedtuple-conversion steps of the run raises, `main` reports
`fail_json` and never `exit_json`, so no facts document — not even a
partial one — reaches the caller. -/
theorem aggregation_all_or_nothing (bmc : DRACClient V)
    (h : isFailure bmc.list_bios_settings = true
       ∨ isFailure bmc.list_nics = true
       ∨ isFailure bmc.list_raid_controllers = true
       ∨ isFailure bmc.list_physical_disks = true
       ∨ isFailure bmc.list_virtual_disks = true
       ∨ isFailure (bmc.list_jobs false) = true
       ∨ isFailure (bmc.list_jobs true) = true
       ∨ (∃ l, bmc.list_raid_controllers = Except.ok l ∧
            isFailure (namedtuples_to_dicts l) = true)
       ∨ (∃ l, bmc.list_physical_disks = Except.ok l ∧
            isFailure (namedtuples_to_dicts l) = true)
       ∨ (∃ l, bmc.list_virtual_disks = Except.ok l ∧
            isFailure (namedtuples_to_dicts l) = true)
       ∨ (∃ l, bmc.list_jobs false = Except.ok l ∧
            isFailure (namedtuples_to_dicts l) = true)
       ∨ (∃ l, bmc.list_jobs true = Except.ok l ∧
            isFailure (namedtuples_to_dicts l) = true)) :
    (∃ msg, main [] bmc = Outcome.fail_json msg) ∧
      ∀ b doc, main [] bmc ≠ Outcome.exit_json b doc := by
  have hfail : ∀ doc, get_facts bmc ≠ Except.ok doc := by
    intro doc hok
    rcases get_facts_ok_inv bmc doc hok with
      ⟨bios, nics, rc, pd, vd, rcd, pdd, vdd, jf, jfd, jt, jtd,
       hb, hn, hrc, hpd, hvd, hrcd, hpdd, hvdd, hjf, hjfd, hjt, hjtd, _⟩
    rcases h with h | h | h | h | h | h | h | h | h | h | h | h
    · rw [hb] at h; exact Bool.noConfusion h
    · rw [hn] at h; exact Bool.noConfusion h
    · rw [hrc] at h; exact Bool.noConfusion h
    · rw [hpd] at h; exact Bool.noConfusion h
    · rw [hvd] at h; exact Bool.noConfusion h
    · rw [hjf] at h; exact Bool.noConfusion h
    · rw [hjt] at h; exact Bool.noConfusion h
    · rcases h with ⟨l, hl, hfl⟩
      rw [hrc] at hl
      cases Except.ok.inj hl
      rw [hrcd] at hfl
      exact Bool.noConfusion hfl
    · rcases h with ⟨l, hl, hfl⟩
      rw [hpd] at hl
      cases Except.ok.inj hl
      rw [hpdd] at hfl
      exact Bool.noConfusion hfl
    · rcases h with ⟨l, hl, hfl⟩
      rw [hvd] at hl
      cases Except.ok.inj hl
      rw [hvdd] at hfl
      exact Bool.noConfusion hfl
    · rcases h with ⟨l, hl, hfl⟩
      rw [hjf] at hl
      cases Except.ok.inj hl
      rw [hjfd] at hfl
      exact Bool.noConfusion hfl
    · rcases h with ⟨l, hl, hfl⟩
      rw [hjt] at hl
      cases Except.ok.inj hl
      rw [hjtd] at hfl
      exact Bool.noConfusion hfl
  cases hg : get_facts bmc with
  | error e =>
    constructor
    · exact ⟨"Failed to get facts: " ++ e, by simp [main, hg]⟩
    · intro b doc hcontra
      simp [main, hg] at hcontra
  | ok doc => exact absurd hg (hfail doc)

/-- A client session whose RAID-controller query fails with a transport
error after the BIOS query succeeded (the failure scenario of the spec). -/
def failingClient : DRACClient String where
  list_bios_settings := .ok [("NumLock", sampleSetting)]
  list_nics := .ok []
  list_raid_controllers := .error "connection reset by peer"
  list_physical_disks := .ok []
  list_virtual_disks := .ok []
  list_jobs := fun _ => .ok []

/-- Witness for C2 at a concrete client session whose RAID query fails. -/
theorem aggregation_all_or_nothing_witness :
    isFailure failingClient.list_raid_controllers = true ∧
    ((∃ msg, main [] failingClient = Outcome.fail_json msg) ∧
      ∀ b doc, main [] failingClient ≠ Outcome.exit_json b doc) :=
  ⟨rfl, aggregation_all_or_nothing failingClient (Or.inr (Or.inr (Or.inl rfl)))⟩

/-! ### C3 -/

/-- C3: every facts document produced by a successful full-mode run has
exactly the seven fixed top-level keys of `get_facts` (the spec's key names
carry a `drac_` prefix in the source), in source order, and each key is
present (its lookup succeeds) whatever the sizes of the collections — an
empty family still contributes its key. -/
theorem full_mode_document_keys (bmc : DRACClient V) (doc : FactsDoc V)
    (h : get_facts bmc = Except.ok doc) :
    doc.map Prod.fst = ["drac_bios_settings", "drac_nic_settings", "drac_jobs",
      "drac_unfinished_jobs", "drac_raid_controllers", "drac_physical_disks",
      "drac_virtual_disks"] ∧
    ∀ k ∈ ["drac_bios_settings", "drac_nic_settings", "drac_jobs",
      "drac_unfinished_jobs", "drac_raid_controllers", "drac_physical_disks",
      "drac_virtual_disks"], ∃ v, List.lookup k doc = some v := by
  rcases get_facts_ok_inv bmc doc h with
    ⟨bios, nics, rc, pd, vd, rcd, pdd, vdd, jf, jfd, jt, jtd,
     _, _, _, _, _, _, _, _, _, _, _, _, hdoc⟩
  subst hdoc
  refine ⟨rfl, ?_⟩
  intro k hk
  simp only [List.mem_cons, List.not_mem_nil, or_false] at hk
  rcases hk with rfl | rfl | rfl | rfl | rfl | rfl | rfl
  · exact ⟨_, rfl⟩
  · exact ⟨_, rfl⟩
  · exact ⟨_, rfl⟩
  · exact ⟨_, rfl⟩
  · exact ⟨_, rfl⟩
  · exact ⟨_, rfl⟩
  · exact ⟨_, rfl⟩

/-- A client session on which every query succeeds and every collection is
empty. -/
def emptyClient : DRACClient String where
  list_bios_settings := .ok []
  list_nics := .ok []
  list_raid_controllers := .ok []
  list_physical_disks := .ok []
  list_virtual_disks := .ok []
  list_jobs := fun _ => .ok []

/-- The document `get_facts` produces on `emptyClient`: all seven keys
present, each with an empty collection. -/
def emptyDoc : FactsDoc String :=
  [("drac_bios_settings", .settingsMap []),
   ("drac_nic_settings", .rawObjs []),
   ("drac_jobs", .dicts []),
   ("drac_unfinished_jobs", .dicts []),
   ("drac_raid_controllers", .dicts []),
   ("drac_physical_disks", .dicts []),
   ("drac_virtual_disks", .dicts [])]

/-- Witness for C3 at a client reporting zero instances for every family. -/
theorem full_mode_document_keys_witness :
    get_facts emptyClient = Except.ok emptyDoc ∧
    (emptyDoc.map Prod.fst = ["drac_bios_settings", "drac_nic_settings", "drac_jobs",
      "drac_unfinished_jobs", "drac_raid_controllers", "drac_physical_disks",
      "drac_virtual_disks"] ∧
    ∀ k ∈ ["drac_bios_settings", "drac_nic_settings", "drac_jobs",
      "drac_unfinished_jobs", "drac_raid_controllers", "drac_physical_disks",
      "drac_virtual_disks"], ∃ v, List.lookup k emptyDoc = some v) :=
  ⟨rfl, full_mode_document_keys emptyClient emptyDoc rfl⟩

/-! ### C4 -/

/-- The job snapshot held by the controller together with the
controller-defined unfinished predicate.  The `dracclient` library that
implements `list_jobs` is an external collaborator, not part of this
repository's sources. -/
structure JobStore (V : Type) where
  jobs : List (RawRecord V)
  unfinished : RawRecord V → Bool

/-- Modelled from the spec: the missing `dracclient` implementation of
`Session.listJobs(onlyUnfinished)` (spec §4.3, §6): with the selector true
the query returns the subset of the one job snapshot selected by the
controller-defined unfinished predicate; with the selector false it
returns the full snapshot. -/
def JobStore.list_jobs (js : JobStore V) (only_unfinished : Bool) : List (RawRecord V) :=
  if only_unfinished then js.jobs.filter js.unfinished else js.jobs

theorem namedtuples_to_dicts_mem (nts : List (RawRecord V)) (ds : List (AttrMap V))
    (h : namedtuples_to_dicts nts = Except.ok ds) :
    ∀ nt ∈ nts, ∃ d ∈ ds, asdict nt = Except.ok d := by
  induction nts generalizing ds with
  | nil => intro nt hnt; exact absurd hnt (List.not_mem_nil nt)
  | cons nt0 rest ih =>
    unfold namedtuples_to_dicts at h
    cases ha : asdict nt0 with
    | error e =>
      simp only [ha, exceptError_bind] at h
      exact Except.noConfusion h
    | ok d0 =>
      simp only [ha, exceptOk_bind] at h
      cases hrest : namedtuples_to_dicts rest with
      | error e =>
        simp only [hrest, exceptError_bind] at h
        exact Except.noConfusion h
      | ok ds0 =>
        simp only [hrest, exceptOk_bind, exceptPure_eq] at h
        cases Except.ok.inj h
        intro nt hnt
        rcases List.mem_cons.mp hnt with rfl | hmem
        · exact ⟨d0, List.mem_cons_self d0 ds0, ha⟩
        · rcases ih ds0 hrest nt hmem with ⟨d, hd, hda⟩
          exact ⟨d, List.mem_cons_of_mem d0 hd, hda⟩

theorem namedtuples_to_dicts_mem_rev (nts : List (RawRecord V)) (ds : List (AttrMap V))
    (h : namedtuples_to_dicts nts = Except.ok ds) :
    ∀ d ∈ ds, ∃ nt ∈ nts, asdict nt = Except.ok d := by
  induction nts generalizing ds with
  | nil =>
    unfold namedtuples_to_dicts at h
    cases Except.ok.inj h
    intro d hd
    exact absurd hd (List.not_mem_nil d)
  | cons nt0 rest ih =>
    unfold namedtuples_to_dicts at h
    cases ha : asdict nt0 with
    | error e =>
      simp only [ha, exceptError_bind] at h
      exact Except.noConfusion h
    | ok d0 =>
      simp only [ha, exceptOk_bind] at h
      cases hrest : namedtuples_to_dicts rest with
      | error e =>
        simp only [hrest, exceptError_bind] at h
        exact Except.noConfusion h
      | ok ds0 =>
        simp only [hrest, exceptOk_bind, exceptPure_eq] at h
        cases Except.ok.inj h
        intro d hd
        rcases List.mem_cons.mp hd with rfl | hmem
        · exact ⟨nt0, List.mem_cons_self nt0 rest, ha⟩
        · rcases ih ds0 hrest d hmem with ⟨nt, hnt, hna⟩
          exact ⟨nt, List.mem_cons_of_mem nt0 hnt, hna⟩

/-- C4: with the controller behaving per the spec contract for
`list_jobs` (spec-modelled, as `dracclient` is external), the
unfinished-jobs collection of any successfully produced document is a
subset of the all-jobs collection: every record of the unfinished list also
appears in the full list, and hence every job id of the unfinished list
occurs in the full list. -/
theorem unfinished_jobs_subset (js : JobStore V) (bmc : DRACClient V)
    (hj : ∀ b, bmc.list_jobs b = Except.ok (JobStore.list_jobs js b))
    (doc : FactsDoc V) (h : get_facts bmc = Except.ok doc)
    (u : List (AttrMap V))
    (hu : List.lookup "drac_unfinished_jobs" doc = some (FactVal.dicts u)) :
    ∃ a, List.lookup "drac_jobs" doc = some (FactVal.dicts a) ∧
      ∀ r ∈ u, r ∈ a ∧ ∀ i, List.lookup "id" r = some i →
        ∃ q ∈ a, List.lookup "id" q = some i := by
  rcases get_facts_ok_inv bmc doc h with
    ⟨bios, nics, rc, pd, vd, rcd, pdd, vdd, jf, jfd, jt, jtd,
     _, _, _, _, _, _, _, _, hjf, hjfd, hjt, hjtd, hdoc⟩
  subst hdoc
  have hjf2 : jf = js.jobs := by
    have := (hj false).symm.trans hjf
    simpa [JobStore.list_jobs] using (Except.ok.inj this).symm
  have hjt2 : jt = js.jobs.filter js.unfinished := by
    have := (hj true).symm.trans hjt
    simpa [JobStore.list_jobs] using (Except.ok.inj this).symm
  subst hjf2
  subst hjt2
  have hu2 : u = jtd := by
    have : some (FactVal.dicts jtd) = some (FactVal.dicts u) := by
      rw [← hu]
      rfl
    have h2 := Option.some.inj this
    cases h2
    rfl
  subst hu2
  refine ⟨jfd, rfl, ?_⟩
  intro r hr
  rcases namedtuples_to_dicts_mem_rev _ _ hjtd r hr with ⟨nt, hntmem, hnta⟩
  have hntjobs : nt ∈ js.jobs := List.mem_of_mem_filter hntmem
  rcases namedtuples_to_dicts_mem _ _ hjfd nt hntjobs with ⟨d, hdmem, hda⟩
  have hdr : d = r := Except.ok.inj (hda.symm.trans hnta)
  subst hdr
  exact ⟨hdmem, fun i hi => ⟨d, hdmem, hi⟩⟩

/-- A job that the controller reports as running. -/
def runningJob : RawRecord String := .namedtuple [("id", "JID_1"), ("status", "Running")]

/-- A job that the controller reports as completed. -/
def completedJob : RawRecord String :=
  .namedtuple [("id", "JID_2"), ("status", "Completed")]

/-- A controller job snapshot with one running and one completed job, the
unfinished predicate selecting the running one. -/
def sampleJobStore : JobStore String where
  jobs := [runningJob, completedJob]
  unfinished := fun nt =>
    match nt with
    | .namedtuple fs => List.lookup "status" fs == some "Running"
    | .malformed _ => false

/-- A client session whose job queries answer from `sampleJobStore` and
whose other queries succeed with empty collections. -/
def jobsClient : DRACClient String where
  list_bios_settings := .ok []
  list_nics := .ok []
  list_raid_controllers := .ok []
  list_physical_disks := .ok []
  list_virtual_disks := .ok []
  list_jobs := fun b => .ok (JobStore.list_jobs sampleJobStore b)

/-- The document `get_facts` produces on `jobsClient`. -/
def jobsDoc : FactsDoc String :=
  [("drac_bios_settings", .settingsMap []),
   ("drac_nic_settings", .rawObjs []),
   ("drac_jobs", .dicts [[("id", "JID_1"), ("status", "Running")],
                         [("id", "JID_2"), ("status", "Completed")]]),
   ("drac_unfinished_jobs", .dicts [[("id", "JID_1"), ("status", "Running")]]),
   ("drac_raid_controllers", .dicts []),
   ("drac_physical_disks", .dicts []),
   ("drac_virtual_disks", .dicts [])]

/-- Witness for C4 at a concrete job snapshot: one running, one completed
job; the unfinished list is contained in the full list. -/
theorem unfinished_jobs_subset_witness :
    ((∀ b, jobsClient.list_jobs b = Except.ok (JobStore.list_jobs sampleJobStore b)) ∧
     get_facts jobsClient = Except.ok jobsDoc ∧
     List.lookup "drac_unfinished_jobs" jobsDoc =
       some (FactVal.dicts [[("id", "JID_1"), ("status", "Running")]])) ∧
    (∃ a, List.lookup "drac_jobs" jobsDoc = some (FactVal.dicts a) ∧
      ∀ r ∈ [[("id", "JID_1"), ("status", "Running")]], r ∈ a ∧
        ∀ i, List.lookup "id" r = some i →
          ∃ q ∈ a, List.lookup "id" q = some i) :=
  ⟨⟨fun _ => rfl, rfl, rfl⟩,
   unfinished_jobs_subset sampleJobStore jobsClient (fun _ => rfl) jobsDoc rfl
     [[("id", "JID_1"), ("status", "Running")]] rfl⟩

/-! ### C5 -/

/-- A NIC record exposing one recognized and one unrecognized attribute. -/
def rawNic : AttrMap String := [("link_speed", "1G"), ("current_value", "up")]

/-- A client session whose single NIC record is `rawNic` and whose other
queries succeed with empty collections. -/
def nicClient : DRACClient String where
  list_bios_settings := .ok []
  list_nics := .ok [rawNic]
  list_raid_controllers := .ok []
  list_physical_disks := .ok []
  list_virtual_disks := .ok []
  list_jobs := fun _ => .ok []

/-- The document `get_facts` produces on `nicClient`. -/
def nicDoc : FactsDoc String :=
  [("drac_bios_settings", .settingsMap []),
   ("drac_nic_settings", .rawObjs [rawNic]),
   ("drac_jobs", .dicts []),
   ("drac_unfinished_jobs", .dicts []),
   ("drac_raid_controllers", .dicts []),
   ("drac_physical_disks", .dicts []),
   ("drac_virtual_disks", .dicts [])]

/-- C5 counterexample: NIC-setting records are not normalized before
entering the facts document.  On a client whose single NIC record exposes
the unrecognized attribute `link_speed`, the record enters the output of
`get_nic_settings` and the facts document unchanged, still exposing
`link_speed`; under the Setting-family tolerance policy applied to BIOS
settings the normalized record would have been
`[("current_value", "up")]`, which differs. -/
theorem nic_settings_not_normalized_counterexample :
    get_nic_settings nicClient = Except.ok [rawNic] ∧
    get_facts nicClient = Except.ok nicDoc ∧
    List.lookup "drac_nic_settings" nicDoc = some (FactVal.rawObjs [rawNic]) ∧
    List.lookup "link_speed" rawNic = some "1G" ∧
    "link_speed" ∉ settingAttrs ∧
    normalizeSetting rawNic = [("current_value", "up")] ∧
    rawNic ≠ normalizeSetting rawNic := by
  refine ⟨rfl, rfl, rfl, rfl, ?_, rfl, ?_⟩
  · decide
  · decide

/-- C5 amended: NIC-setting records receive no normalization at all:
`get_nic_settings` returns the NIC query result unchanged, and that raw
collection enters the facts document as is under the key
`drac_nic_settings`; only BIOS settings receive the Setting-family
tolerance normalization. -/
theorem nic_settings_passthrough (bmc : DRACClient V) (nics : List (AttrMap V))
    (h : bmc.list_nics = Except.ok nics) :
    get_nic_settings bmc = Except.ok nics ∧
    ∀ doc, get_facts bmc = Except.ok doc →
      List.lookup "drac_nic_settings" doc = some (FactVal.rawObjs nics) := by
  constructor
  · unfold get_nic_settings
    exact h
  · intro doc hdocOk
    rcases get_facts_ok_inv bmc doc hdocOk with
      ⟨bios, nics2, rc, pd, vd, rcd, pdd, vdd, jf, jfd, jt, jtd,
       _, hn, _, _, _, _, _, _, _, _, _, _, hdoc⟩
    have hnn : nics2 = nics := Except.ok.inj (hn.symm.trans h)
    subst hnn
    subst hdoc
    rfl

/-- Witness for the amended C5 at the concrete `nicClient`. -/
theorem nic_settings_passthrough_witness :
    get_nic_settings nicClient = Except.ok [rawNic] ∧
    ∀ doc, get_facts nicClient = Except.ok doc →
      List.lookup "drac_nic_settings" doc = some (FactVal.rawObjs [rawNic]) :=
  nic_settings_passthrough nicClient [rawNic] rfl

/-! ### C6 -/

/-- A well-formed job record preceding the malformed one. -/
def jobRecA : RawRecord String :=
  .namedtuple [("id", "JID_831286578145"), ("status", "Completed")]

/-- A well-formed job record following the malformed one. -/
def jobRecB : RawRecord String :=
  .namedtuple [("id", "JID_831286578146"), ("status", "Running")]

/-- A client session whose all-jobs query returns a collection with a
malformed record between two well-formed ones. -/
def badJobsClient : DRACClient String where
  list_bios_settings := .ok []
  list_nics := .ok []
  list_raid_controllers := .ok []
  list_physical_disks := .ok []
  list_virtual_disks := .ok []
  list_jobs := fun b => if b then .ok [] else .ok [jobRecA, .malformed "str", jobRecB]

/-- A client session whose RAID-controller query returns a single malformed
record. -/
def badRaidClient : DRACClient String where
  list_bios_settings := .ok []
  list_nics := .ok []
  list_raid_controllers := .ok [.malformed "str"]
  list_physical_disks := .ok []
  list_virtual_disks := .ok []
  list_jobs := fun _ => .ok []

/-- C6 counterexample: a record of unexpected shape aborts the conversion of
its whole collection.  On a collection with a malformed record between two
well-formed siblings, `namedtuples_to_dicts` raises at that record and
returns no list at all — the remaining sibling is not processed into any
output — and `main` reports one generic failure message; the same message
is produced whether the bad record sat in the jobs family or in the
RAID-controllers family, so the diagnostic carries neither the offending
record's family nor its identifying key. -/
theorem normalization_abort_counterexample :
    namedtuples_to_dicts [jobRecA, .malformed "str", jobRecB] =
      Except.error "AttributeError: str object has no attribute _asdict" ∧
    isFailure (namedtuples_to_dicts [jobRecA, .malformed "str", jobRecB]) = true ∧
    main [] badJobsClient = Outcome.fail_json
      "Failed to get facts: AttributeError: str object has no attribute _asdict" ∧
    main [] badRaidClient = Outcome.fail_json
      "Failed to get facts: AttributeError: str object has no attribute _asdict" :=
  ⟨rfl, rfl, rfl, rfl⟩

/-- C6 amended: when one record in a collection is of unexpected shape, the
conversion raises at the first such record: the result is the error raised
there (not a list), so normalization of the collection is aborted —
siblings after the bad record are not processed — and the failure
propagates to the aggregator as a single generic exception. -/
theorem namedtuples_first_bad_aborts (pre suf : List (RawRecord V)) (d : String)
    (hpre : ∀ nt ∈ pre, ∃ fs, nt = RawRecord.namedtuple fs) :
    namedtuples_to_dicts (pre ++ RawRecord.malformed d :: suf) =
      Except.error ("AttributeError: " ++ d ++ " object has no attribute _asdict") := by
  induction pre with
  | nil => rfl
  | cons nt0 rest ih =>
    rcases hpre nt0 (List.mem_cons_self nt0 rest) with ⟨fs, rfl⟩
    have hrest := ih fun nt hnt => hpre nt (List.mem_cons_of_mem _ hnt)
    show namedtuples_to_dicts (RawRecord.namedtuple fs :: (rest ++ RawRecord.malformed d :: suf)) = _
    unfold namedtuples_to_dicts
    rw [show asdict (RawRecord.namedtuple fs) = Except.ok fs from rfl]
    rw [exceptOk_bind, hrest, exceptError_bind]

/-- Witness for the amended C6 at the concrete three-record collection. -/
theorem namedtuples_first_bad_aborts_witness :
    (∀ nt ∈ [jobRecA], ∃ fs, nt = RawRecord.namedtuple fs) ∧
    namedtuples_to_dicts ([jobRecA] ++ RawRecord.malformed "str" :: [jobRecB]) =
      Except.error ("AttributeError: " ++ "str" ++ " object has no attribute _asdict") :=
  ⟨fun nt hnt => ⟨[("id", "JID_831286578145"), ("status", "Completed")],
      by rcases List.mem_singleton.mp hnt with rfl; rfl⟩,
   namedtuples_first_bad_aborts [jobRecA] [jobRecB] "str"
     fun nt hnt => ⟨[("id", "JID_831286578145"), ("status", "Completed")],
       by rcases List.mem_singleton.mp hnt with rfl; rfl⟩⟩

/-! ### C7 -/

theorem get_facts_traced_ok_trace (bmc : DRACClient V) (doc : FactsDoc V)
    (h : (get_facts_traced bmc).2 = Except.ok doc) :
    (get_facts_traced bmc).1 = [Op.listBios, Op.listNics, Op.listRaidControllers,
      Op.listPhysicalDisks, Op.listVirtualDisks, Op.listJobs false, Op.listJobs true] := by
  unfold get_facts_traced at h ⊢
  cases hb : bmc.list_bios_settings with
  | error e => simp [hb] at h
  | ok bios =>
  simp only [hb] at h ⊢
  cases hn : bmc.list_nics with
  | error e => simp [hn] at h
  | ok nics =>
  simp only [hn] at h ⊢
  cases hrc : bmc.list_raid_controllers with
  | error e => simp [hrc] at h
  | ok rc =>
  simp only [hrc] at h ⊢
  cases hpd : bmc.list_physical_disks with
  | error e => simp [hpd] at h
  | ok pd =>
  simp only [hpd] at h ⊢
  cases hvd : bmc.list_virtual_disks with
  | error e => simp [hvd] at h
  | ok vd =>
  simp only [hvd] at h ⊢
  cases hrcd : namedtuples_to_dicts rc with
  | error e => simp [hrcd] at h
  | ok rcd =>
  simp only [hrcd] at h ⊢
  cases hpdd : namedtuples_to_dicts pd with
  | error e => simp [hpdd] at h
  | ok pdd =>
  simp only [hpdd] at h ⊢
  cases hvdd : namedtuples_to_dicts vd with
  | error e => simp [hvdd] at h
  | ok vdd =>
  simp only [hvdd] at h ⊢
  cases hjf : bmc.list_jobs false with
  | error e => simp [hjf] at h
  | ok jf =>
  simp only [hjf] at h ⊢
  cases hjfd : namedtuples_to_dicts jf with
  | error e => simp [hjfd] at h
  | ok jfd =>
  simp only [hjfd] at h ⊢
  cases hjt : bmc.list_jobs true with
  | error e => simp [hjt] at h
  | ok jt =>
  simp only [hjt] at h ⊢
  cases hjtd : namedtuples_to_dicts jt with
  | error e => simp [hjtd] at h
  | ok jtd =>
  rfl

theorem get_bios_facts_traced_ok_inv (bmc : DRACClient V) (doc : FactsDoc V)
    (h : (get_bios_facts_traced bmc).2 = Except.ok doc) :
    (get_bios_facts_traced bmc).1 = [Op.listBios, Op.listJobs false, Op.listJobs true] ∧
    doc.map Prod.fst = ["drac_bios_settings", "drac_jobs", "drac_unfinished_jobs"] := by
  unfold get_bios_facts_traced at h ⊢
  cases hb : bmc.list_bios_settings with
  | error e => simp [hb] at h
  | ok bios =>
  simp only [hb] at h ⊢
  cases hjf : bmc.list_jobs false with
  | error e => simp [hjf] at h
  | ok jf =>
  simp only [hjf] at h ⊢
  cases hjfd : namedtuples_to_dicts jf with
  | error e => simp [hjfd] at h
  | ok jfd =>
  simp only [hjfd] at h ⊢
  cases hjt : bmc.list_jobs true with
  | error e => simp [hjt] at h
  | ok jt =>
  simp only [hjt] at h ⊢
  cases hjtd : namedtuples_to_dicts jt with
  | error e => simp [hjtd] at h
  | ok jtd =>
  simp only [hjtd] at h ⊢
  cases Except.ok.inj h
  exact ⟨trivial, rfl⟩

/-- C7: on any run where both variants succeed, the full-mode aggregator
issues the controller queries in exactly the order BIOS settings, NIC
settings, RAID controllers, physical disks, virtual disks, all jobs,
unfinished jobs; the reduced-mode variant issues only BIOS settings, all
jobs, unfinished jobs, and its document holds exactly the keys
`drac_bios_settings`, `drac_jobs`, `drac_unfinished_jobs` (the spec's key
names carry a `drac_` prefix in the source). -/
theorem query_order_full_and_reduced (bmc : DRACClient V) (doc doc2 : FactsDoc V)
    (h : (get_facts_traced bmc).2 = Except.ok doc)
    (h2 : (get_bios_facts_traced bmc).2 = Except.ok doc2) :
    (get_facts_traced bmc).1 = [Op.listBios, Op.listNics, Op.listRaidControllers,
      Op.listPhysicalDisks, Op.listVirtualDisks, Op.listJobs false, Op.listJobs true] ∧
    (get_bios_facts_traced bmc).1 = [Op.listBios, Op.listJobs false, Op.listJobs true] ∧
    doc2.map Prod.fst = ["drac_bios_settings", "drac_jobs", "drac_unfinished_jobs"] :=
  ⟨get_facts_traced_ok_trace bmc doc h,
   (get_bios_facts_traced_ok_inv bmc doc2 h2).1,
   (get_bios_facts_traced_ok_inv bmc doc2 h2).2⟩

/-- The full-mode document `get_facts` produces on `sampleClient`. -/
def sampleDoc : FactsDoc String :=
  [("drac_bios_settings",
    .settingsMap [("NumLock", [("current_value", "On"), ("pending_value", "Off")])]),
   ("drac_nic_settings", .rawObjs []),
   ("drac_jobs", .dicts []),
   ("drac_unfinished_jobs", .dicts []),
   ("drac_raid_controllers", .dicts []),
   ("drac_physical_disks", .dicts []),
   ("drac_virtual_disks", .dicts [])]

/-- The reduced-mode document `get_bios_facts` produces on `sampleClient`. -/
def sampleBiosDoc : FactsDoc String :=
  [("drac_bios_settings",
    .settingsMap [("NumLock", [("current_value", "On"), ("pending_value", "Off")])]),
   ("drac_jobs", .dicts []),
   ("drac_unfinished_jobs", .dicts [])]

/-- Witness for C7 at `sampleClient`, where both variants succeed. -/
theorem query_order_full_and_reduced_witness :
    ((get_facts_traced sampleClient).2 = Except.ok sampleDoc ∧
     (get_bios_facts_traced sampleClient).2 = Except.ok sampleBiosDoc) ∧
    ((get_facts_traced sampleClient).1 = [Op.listBios, Op.listNics, Op.listRaidControllers,
      Op.listPhysicalDisks, Op.listVirtualDisks, Op.listJobs false, Op.listJobs true] ∧
     (get_bios_facts_traced sampleClient).1 = [Op.listBios, Op.listJobs false, Op.listJobs true] ∧
     sampleBiosDoc.map Prod.fst = ["drac_bios_settings", "drac_jobs", "drac_unfinished_jobs"]) :=
  ⟨⟨rfl, rfl⟩, query_order_full_and_reduced sampleClient sampleDoc sampleBiosDoc rfl rfl⟩

/-! ### C8 -/

/-- C8: a successful conversion of a collection of fixed-shape records is a
pure field-by-field copy: the output pairs with the input positionally, and
each output record is exactly its source namedtuple's field list — same
field names in the same order, each mapped to the source's value
unchanged. -/
theorem namedtuples_to_dicts_field_copy (nts : List (RawRecord V)) (ds : List (AttrMap V))
    (h : namedtuples_to_dicts nts = Except.ok ds) :
    List.Forall₂ (fun nt d => ∃ fs, nt = RawRecord.namedtuple fs ∧ d = fs ∧
      d.map Prod.fst = fs.map Prod.fst ∧ ∀ k, List.lookup k d = List.lookup k fs)
      nts ds := by
  induction nts generalizing ds with
  | nil =>
    unfold namedtuples_to_dicts at h
    cases Except.ok.inj h
    exact List.Forall₂.nil
  | cons nt0 rest ih =>
    unfold namedtuples_to_dicts at h
    cases ha : asdict nt0 with
    | error e =>
      simp only [ha, exceptError_bind] at h
      exact Except.noConfusion h
    | ok d0 =>
      simp only [ha, exceptOk_bind] at h
      cases hrest : namedtuples_to_dicts rest with
      | error e =>
        simp only [hrest, exceptError_bind] at h
        exact Except.noConfusion h
      | ok ds0 =>
        simp only [hrest, exceptOk_bind, exceptPure_eq] at h
        cases Except.ok.inj h
        refine List.Forall₂.cons ?_ (ih ds0 hrest)
        cases nt0 with
        | namedtuple fs =>
          have hfd : fs = d0 := Except.ok.inj ha
          exact ⟨fs, rfl, hfd.symm, by rw [hfd], fun k => by rw [hfd]⟩
        | malformed d => exact Except.noConfusion ha

/-- Witness for C8 at a concrete two-record collection. -/
theorem namedtuples_to_dicts_field_copy_witness :
    namedtuples_to_dicts [jobRecA, jobRecB] = Except.ok
      [[("id", "JID_831286578145"), ("status", "Completed")],
       [("id", "JID_831286578146"), ("status", "Running")]] ∧
    List.Forall₂ (fun nt d => ∃ fs, nt = RawRecord.namedtuple fs ∧ d = fs ∧
      d.map Prod.fst = fs.map Prod.fst ∧
      ∀ k, List.lookup k d = List.lookup k fs)
      [jobRecA, jobRecB]
      [[("id", "JID_831286578145"), ("status", "Completed")],
       [("id", "JID_831286578146"), ("status", "Running")]] :=
  ⟨rfl, namedtuples_to_dicts_field_copy [jobRecA, jobRecB] _ rfl⟩

/-! ### C9 -/

/-- Modelled from the spec: the effect of one controller operation on the
controller's configuration state, which the external `dracclient`
collaborator owns and whose listing queries are read-only (spec §1
non-goals, §6): a mutating operation appends itself to the list of
mutations applied, a listing query leaves the state unchanged. -/
def opEffect (s : List Op) (op : Op) : List Op :=
  if Op.mutates op then s ++ [op] else s

/-- Every controller-operation trace either variant can produce, in every
run: each prefix of the full-mode sequence that ends at a query, and each
such prefix of the reduced-mode sequence. -/
def queryTraces : List (List Op) :=
  [[Op.listBios],
   [Op.listBios, Op.listNics],
   [Op.listBios, Op.listNics, Op.listRaidControllers],
   [Op.listBios, Op.listNics, Op.listRaidControllers, Op.listPhysicalDisks],
   [Op.listBios, Op.listNics, Op.listRaidControllers, Op.listPhysicalDisks,
    Op.listVirtualDisks],
   [Op.listBios, Op.listNics, Op.listRaidControllers, Op.listPhysicalDisks,
    Op.listVirtualDisks, Op.listJobs false],
   [Op.listBios, Op.listNics, Op.listRaidControllers, Op.listPhysicalDisks,
    Op.listVirtualDisks, Op.listJobs false, Op.listJobs true],
   [Op.listBios, Op.listJobs false],
   [Op.listBios, Op.listJobs false, Op.listJobs true]]

theorem get_facts_traced_trace_mem (bmc : DRACClient V) :
    (get_facts_traced bmc).1 ∈ queryTraces := by
  unfold get_facts_traced
  repeat' split
  all_goals simp [queryTraces]

theorem get_bios_facts_traced_trace_mem (bmc : DRACClient V) :
    (get_bios_facts_traced bmc).1 ∈ queryTraces := by
  unfold get_bios_facts_traced
  repeat' split
  all_goals simp [queryTraces]

theorem mem_queryTraces_readonly (tr : List Op) (h : tr ∈ queryTraces) :
    ∀ op ∈ tr, Op.mutates op = false := by
  fin_cases h <;> decide

theorem foldl_opEffect_id (tr : List Op) (h : ∀ op ∈ tr, Op.mutates op = false) :
    ∀ s, List.foldl opEffect s tr = s := by
  induction tr with
  | nil => intro s; rfl
  | cons op rest ih =>
    intro s
    have hop := h op (List.mem_cons_self op rest)
    have hrest := ih fun o ho => h o (List.mem_cons_of_mem op ho)
    rw [List.foldl_cons]
    rw [show opEffect s op = s by simp [opEffect, hop]]
    exact hrest s

/-- C9: a run never mutates controller state: in every invocation,
full-mode or reduced-mode, every operation issued on the controller session
is one of the read-only listing queries (none is a mutating operation), and
folding the run's operation trace over the controller-state effect leaves
any controller state unchanged.  The read-only effect of listing queries is
modelled from the spec, the `dracclient` transport being external. -/
theorem run_read_only (bmc : DRACClient V) :
    (∀ op ∈ (get_facts_traced bmc).1, Op.mutates op = false) ∧
    (∀ op ∈ (get_bios_facts_traced bmc).1, Op.mutates op = false) ∧
    (∀ s, List.foldl opEffect s (get_facts_traced bmc).1 = s) ∧
    (∀ s, List.foldl opEffect s (get_bios_facts_traced bmc).1 = s) := by
  have h1 := mem_queryTraces_readonly _ (get_facts_traced_trace_mem bmc)
  have h2 := mem_queryTraces_readonly _ (get_bios_facts_traced_trace_mem bmc)
  exact ⟨h1, h2, foldl_opEffect_id _ h1, foldl_opEffect_id _ h2⟩

end DracFacts
